import Mathlib

/-!
Verification development for the labelous annotation-synchronization core
(src/labelous_ti/label_app/views.py).

The embedding is shallow: the Django views are translated into pure Lean
functions over an explicit database state.  Database rows become structures,
querysets become list operations, and exceptions become an error type
(`Except`).  All timestamps are abstract naturals supplied as parameters, and
the random edit key generated by the export path is likewise a parameter.

Field texts of the inbound XML are modelled at the abstraction level the view
consumes them: a field whose every failure mode (absent element, empty text,
unparseable text) leads to the same exception is modelled as an `Option` of
its parsed value, with `none` covering all the failure modes.  ElementTree
returns `None` (never the empty string) as the text of an element without
content; where that distinction is observable (the name field) the model
keeps the full `Option (Option String)` structure.

Coordinates are modelled as exact decimals (rationals): the double conversion
"float(format(float(t), .2f))" of the source is `round2`, rounding to two
decimal places with ties to even, which is the rounding performed by the
Python formatting of the exact decimal value.  Non-finite floating values are
outside this model.

Note on naming: the Lean identifiers `Anno`, `anno`, `processAnnoXml`,
`getAnnoXml` stand for the source's Annotation model, annotation fields and
the views get_annotation_xml / process_annotation_xml / post_annotation_xml.
-/

namespace Labelous

/-- Modelled from the spec: the subject item ("Image", image_mgr/models.py is
not under src/).  It has an identity and a visibility flag; only those two
attributes are consumed by the views. -/
structure Image where
  pk : Nat
  visible : Bool
deriving DecidableEq

/-- Modelled from the spec: the AnnotatedEntity ("Annotation" model,
label_app/models.py is not under src/).  Owner identity, subject-item
reference, freshness token (edit_key, a byte string), locked and soft-delete
flags, and a last-edit timestamp. -/
structure Anno where
  pk : Nat
  annotator : Nat
  image : Nat
  edit_key : List Nat
  locked : Bool
  deleted : Bool
  last_edit_time : Nat
deriving DecidableEq

/-- Modelled from the spec: the Record ("Polygon" model, label_app/models.py
is not under src/).  `anno` is the owning Annotation's pk, `anno_index` the
nullable per-export position index, `points` the flat coordinate list (even
positions x, odd positions y).  The label column is modelled as storing
exactly the value the view assigns to it, which for the import path can be
the missing text of an empty name element (hence `Option String`). -/
structure Polygon where
  pk : Nat
  anno : Nat
  anno_index : Option Nat
  label_as_str : Option String
  notes : String
  occluded : Bool
  points : List ℚ
  locked : Bool
  deleted : Bool
  last_edit_time : Nat
deriving DecidableEq

/-- The database state: the three tables as lists of rows. -/
structure DB where
  images : List Image
  annos : List Anno
  polygons : List Polygon
deriving DecidableEq

/-- Round half to even, the rounding used by Python float formatting of an
exact decimal value. -/
def rhe (q : ℚ) : ℤ :=
  let f := ⌊q⌋
  if q - f < 1/2 then f
  else if 1/2 < q - f then f + 1
  else if f % 2 = 0 then f else f + 1

/-- The integer printed by formatting a coordinate with two decimal places
(scaled by 100): the two-decimal text of q is exactly the decimal rendering
of fmt2 q / 100, so two coordinate texts are byte-identical iff their fmt2
values are equal (views.py line 183). -/
def fmt2 (q : ℚ) : ℤ := rhe (100 * q)

/-- The double conversion of views.py lines 290-291: parse a coordinate,
format it to two decimal places, parse it again.  On exact decimals this is
rounding to a multiple of 1/100. -/
def round2 (q : ℚ) : ℚ := (fmt2 q : ℚ) / 100

/-- One pt element of an inbound document.  `none` covers a missing x/y
element and unparseable text (both raise, collapsing into "bad points"). -/
structure PtTag where
  x : Option ℚ
  y : Option ℚ
deriving DecidableEq

/-- One object element of an inbound document, at the abstraction level
process_annotation_xml reads it.  For c_poly_id, the outer `none` is an
absent element (a new polygon) and `some none` is present-but-unparseable
text.  For name, `none` is an absent element and `some t` a present element
whose ElementTree text is t (`none` for an element without content).
`verified` is carried by the documents but never read by the import path.
For occluded, `none` is an absent element.  `attributes` is the final text
value (absent element and empty text both give `none`).  For polygon, `none`
is an absent polygon element. -/
structure ObjTag where
  c_poly_id : Option (Option Int)
  name : Option (Option String)
  deleted : Option Int
  verified : Option String
  occluded : Option (Option String)
  attributes : Option String
  polygon : Option (List PtTag)
deriving DecidableEq

/-- An inbound annotation document, as consumed by process_annotation_xml.
`filename` is the image id when the text has the form img<id>.jpg with an
integer id, `none` otherwise (any malformed filename raises).  `c_anno_id`
and `edit_key` are `none` when absent or unparseable. -/
structure AnnoDoc where
  tag : String
  filename : Option Int
  c_anno_id : Option Int
  edit_key : Option (List Nat)
  objects : List ObjTag
deriving DecidableEq

/-- The validated intermediate record of one object element (the
SimpleNamespace built by views.py lines 248-296). -/
structure AnnoPolygon where
  id : Option Int
  index : Nat
  name : Option String
  deleted : Bool
  occluded : Bool
  attributes : String
  points : List ℚ
deriving DecidableEq

/-- Errors of the import path, one per distinct raise site of views.py.
notAnno, invalidImage, invalidAnnoId, invalidEditKey and invalidPolygon are
the SuspiciousOperation reasons of lines 204, 216, 226, 239/314 and 298;
keyError is the uncaught KeyError of line 334 and commitFetchFailed the
uncaught DoesNotExist of the re-fetch at line 310 (both surface as
"xml process failed" in parse_annotation_xml). -/
inductive ProcErr where
  | notAnno
  | invalidImage
  | invalidAnnoId
  | invalidEditKey
  | invalidPolygon
  | keyError
  | commitFetchFailed
deriving DecidableEq

/-- Django get on a filtered queryset: a unique match, or nothing (both the
DoesNotExist and the MultipleObjectsReturned outcome are caught by the
surrounding handler wherever this helper is used). -/
def getUnique (l : List α) (f : α → Bool) : Option α :=
  match l.filter f with
  | [a] => some a
  | _ => none

/-- Whether an optional text equals the empty string (views.py line 264
compares the name against the empty string; ElementTree text is never the
empty string, so only `some` of the empty string satisfies this). -/
def isEmptyStr : Option String → Bool
  | some s => s == ""
  | none => false

/-- Parse the points of one object (views.py lines 283-294): every pt needs
parseable x and y, and each coordinate is canonicalized by round2. -/
def parsePts : List PtTag → Except ProcErr (List ℚ)
  | [] => .ok []
  | pt :: rest =>
    match pt.x, pt.y with
    | some x, some y =>
      match parsePts rest with
      | .error e => .error e
      | .ok qs => .ok (round2 x :: round2 y :: qs)
    | _, _ => .error .invalidPolygon

/-- Parse and validate one object element (views.py lines 248-296). `seen`
is the set of polygon ids met so far (duplicate detection). -/
def parseObj (o : ObjTag) (idx : Nat) (seen : List Int) : Except ProcErr AnnoPolygon :=
  match o.c_poly_id with
  | some none => .error .invalidPolygon
  | some (some i) =>
    if seen.contains i then .error .invalidPolygon
    else parseObjFields o idx (some i)
  | none => parseObjFields o idx none
where
  parseObjFields (o : ObjTag) (idx : Nat) (pid : Option Int) : Except ProcErr AnnoPolygon :=
    match o.name with
    | none => .error .invalidPolygon
    | some nm =>
      if isEmptyStr nm then .error .invalidPolygon
      else match o.deleted with
      | none => .error .invalidPolygon
      | some d =>
        if d ≠ 0 ∧ d ≠ 1 then .error .invalidPolygon
        else match o.occluded with
        | none => .error .invalidPolygon
        | some oc =>
          match (match oc with
                 | some s => if s = "no" then some false
                             else if s = "yes" then some true else none
                 | none => none) with
          | none => .error .invalidPolygon
          | some ocb =>
            match o.polygon with
            | none => .error .invalidPolygon
            | some pts =>
              match parsePts pts with
              | .error e => .error e
              | .ok qs =>
                .ok { id := pid, index := idx, name := nm, deleted := d == 1,
                      occluded := ocb, attributes := o.attributes.getD "",
                      points := qs }

/-- Parse all object elements in document order, assigning sequential
indices (views.py lines 243-298). -/
def parseObjs : List ObjTag → Nat → List Int → Except ProcErr (List AnnoPolygon)
  | [], _, _ => .ok []
  | o :: rest, idx, seen =>
    match parseObj o idx seen with
    | .error e => .error e
    | .ok ap =>
      match parseObjs rest (idx + 1) (match ap.id with | some i => i :: seen | none => seen) with
      | .error e => .error e
      | .ok aps => .ok (ap :: aps)

/-- The non-deleted polygons of one annotation (views.py line 301). -/
def snapPolys (db : DB) (aPk : Nat) : List Polygon :=
  db.polygons.filter (fun p => p.anno == aPk && !p.deleted)

/-- The by-id lookup map of views.py line 303 (a Python dict: on a duplicate
key the last entry wins). -/
def polygonsById (sp : List Polygon) (i : Int) : Option Polygon :=
  (sp.filter (fun p => (p.pk : Int) == i)).getLast?

/-- The by-index lookup map of views.py lines 305-306, over polygons whose
anno_index is non-null (a Python dict: on a duplicate key the last entry
wins). -/
def polygonsByIndex (sp : List Polygon) (idx : Nat) : Option Polygon :=
  (sp.filter (fun p => p.anno_index == some idx)).getLast?

/-- The greatest polygon pk of the database. -/
def polyPkMax : List Polygon → Nat
  | [] => 0
  | p :: rest => max p.pk (polyPkMax rest)

/-- The pk the storage layer assigns to a freshly inserted polygon row. -/
def freshPolyPk (db : DB) : Nat := polyPkMax db.polygons + 1

/-- Save one polygon row: update the row with its pk if present, insert it
otherwise (Django Model.save). -/
def savePoly (db : DB) (p : Polygon) : DB :=
  if db.polygons.any (fun q => q.pk == p.pk) then
    { db with polygons := db.polygons.map (fun q => if q.pk = p.pk then p else q) }
  else
    { db with polygons := db.polygons ++ [p] }

/-- A brand-new polygon record (views.py lines 346-347): attached to the
target annotation with the intermediate record's index as its anno_index.
The remaining fields are the storage defaults of a fresh row; every mutable
field is overwritten before the save because a created polygon always counts
as changed. -/
def newPolygon (aPk : Nat) (ap : AnnoPolygon) (pk : Nat) : Polygon :=
  { pk := pk, anno := aPk, anno_index := some ap.index, label_as_str := none,
    notes := "", occluded := false, points := [], locked := false,
    deleted := false, last_edit_time := 0 }

/-- The field-level diff of views.py lines 350-355: a created polygon always
counts as changed, otherwise label, notes, occlusion, points and deletion
flag are compared in turn. -/
def polyChanged (created : Bool) (p : Polygon) (ap : AnnoPolygon) : Bool :=
  if created then true
  else if p.label_as_str ≠ ap.name then true
  else if p.notes ≠ ap.attributes then true
  else if p.occluded ≠ ap.occluded then true
  else if p.points ≠ ap.points then true
  else if p.deleted ≠ ap.deleted then true
  else false

/-- Overwrite the mutable fields of a matched or created polygon from the
intermediate record and refresh its timestamp (views.py lines 358-364). -/
def mutUpdate (p : Polygon) (now : Nat) (ap : AnnoPolygon) : Polygon :=
  { p with label_as_str := ap.name, notes := ap.attributes,
           occluded := ap.occluded, points := ap.points,
           deleted := ap.deleted, last_edit_time := now }

/-- Apply the diff to a matched or created polygon (views.py lines 350-366):
save it when changed, keep the state untouched otherwise.  The Bool of the
state is the annotation_changed accumulator. -/
def applyMatched (st : DB × Bool) (p : Polygon) (created : Bool) (now : Nat)
    (ap : AnnoPolygon) : Except ProcErr (DB × Bool) :=
  if polyChanged created p ap then
    .ok (savePoly st.1 (mutUpdate p now ap), true)
  else
    .ok (st.1, st.2)

/-- The body of the reconciliation loop for one intermediate record
(views.py lines 321-366).  An id is looked up in the by-id map (a miss is a
no-op for a deleted record, a KeyError otherwise); an id-less record is
looked up by its recomputed index (a miss creates a new record unless it is
marked deleted). -/
def applyAnnoPoly (sp : List Polygon) (aPk now : Nat) (st : DB × Bool)
    (ap : AnnoPolygon) : Except ProcErr (DB × Bool) :=
  match ap.id with
  | some i =>
    match polygonsById sp i with
    | some p => applyMatched st p false now ap
    | none => if ap.deleted then .ok st else .error .keyError
  | none =>
    match polygonsByIndex sp ap.index with
    | some p => applyMatched st p false now ap
    | none =>
      if ap.deleted then .ok st
      else applyMatched st (newPolygon aPk ap (freshPolyPk st.1)) true now ap

/-- Root tag check and resolution of the image and the target annotation
(views.py lines 203-226).  The c_anno_id must parse but its value is not
used by the lookup, which filters on annotator, image, locked and deleted;
the deleted re-check of line 223 is transcribed although the queryset
already filters it. -/
def resolveTarget (db : DB) (u : Nat) (doc : AnnoDoc) : Except ProcErr (Image × Anno) :=
  if doc.tag ≠ "annotation" then .error .notAnno
  else match doc.filename with
  | none => .error .invalidImage
  | some fid =>
    match getUnique db.images (fun im => (im.pk : Int) == fid) with
    | none => .error .invalidImage
    | some im =>
      if im.visible = false then .error .invalidImage
      else match doc.c_anno_id with
      | none => .error .invalidAnnoId
      | some _ =>
        match getUnique db.annos
            (fun a => a.annotator == u && a.image == im.pk && !a.locked && !a.deleted) with
        | none => .error .invalidAnnoId
        | some a => if a.deleted then .error .invalidAnnoId else .ok (im, a)

/-- The final timestamp update of views.py lines 368-370: the annotation row
is saved with update_fields restricted to last_edit_time, so no other
column (in particular not the edit key) is written. -/
def touchAnnoTime (db : DB) (aPk now : Nat) : DB :=
  { db with annos := db.annos.map (fun a => if a.pk = aPk then { a with last_edit_time := now } else a) }

/-- process_annotation_xml (views.py lines 202-370).  `snap` is the
database as read outside the transaction (resolution, fast-path edit-key
check, lookup-map construction); `commit` is the database as read and
written inside the transaction (the authoritative edit-key re-check under
the exclusive lock, the polygon saves and the final annotation timestamp
update).  A sequential call has snap = commit; an export racing between the
two phases is modelled by different states.  The returned database is the
committed state; any error aborts with no state returned. -/
def processAnnoXml (snap commit : DB) (u now : Nat) (doc : AnnoDoc) : Except ProcErr DB :=
  match resolveTarget snap u doc with
  | .error e => .error e
  | .ok (_im, anno0) =>
    match doc.edit_key with
    | none => .error .invalidEditKey
    | some ek =>
      if ek ≠ anno0.edit_key then .error .invalidEditKey
      else match parseObjs doc.objects 0 [] with
      | .error e => .error e
      | .ok aps =>
        match getUnique commit.annos (fun a => a.pk == anno0.pk) with
        | none => .error .commitFetchFailed
        | some a2 =>
          if ek ≠ a2.edit_key then .error .invalidEditKey
          else match aps.foldlM (applyAnnoPoly (snapPolys snap anno0.pk) a2.pk now) (commit, false) with
          | .error e => .error e
          | .ok (db2, changed) =>
            .ok (if changed then touchAnnoTime db2 a2.pk now else db2)

/-- The import endpoint (post_annotation_xml / parse_annotation_xml): any
error rolls the transaction back, so the database keeps the commit-time
state; a success commits the new state.  The second component is the error
surfaced to the logs (the wire response is a fixed acknowledgment either
way). -/
def postAnnoXml (snap commit : DB) (u now : Nat) (doc : AnnoDoc) : DB × Option ProcErr :=
  match processAnnoXml snap commit u now doc with
  | .ok db2 => (db2, none)
  | .error e => (commit, some e)

/-- Errors of the export path: http404 is the explicit not-found outcome
(views.py line 117); crash is any uncaught exception (the UnboundLocalError
of line 105 when the image does not exist, a MultipleObjectsReturned of
either get, or xml_escape applied to a null label). -/
inductive ExportErr where
  | http404
  | crash
deriving DecidableEq

/-- One object element of an outbound document (views.py lines 152-185).
`name` and `attributes` carry the text before XML escaping (escaping is
injective and undone by the tool).  `pts` is the list of fmt2 values of the
coordinates: the printed text of a coordinate is its fmt2 value divided by
100, rendered with exactly two decimals. -/
structure ExportObj where
  c_poly_id : Nat
  name : String
  deleted : Nat
  verified : Bool
  occluded : Bool
  attributes : String
  pts : List Int
deriving DecidableEq

/-- An outbound full-state document (views.py lines 133-186). -/
structure ExportDoc where
  c_anno_id : Nat
  edit_key : List Nat
  filename : Nat
  objects : List ExportObj
deriving DecidableEq

/-- Serialize the visible polygons (views.py lines 152-185); a polygon whose
stored label is null crashes the escape call. -/
def buildObjs (aLocked : Bool) : List Polygon → Except ExportErr (List ExportObj)
  | [] => .ok []
  | p :: rest =>
    match p.label_as_str with
    | none => .error .crash
    | some s =>
      match buildObjs aLocked rest with
      | .error e => .error e
      | .ok os =>
        .ok ({ c_poly_id := p.pk, name := s, deleted := 0,
               verified := p.locked || aLocked, occluded := p.occluded,
               attributes := p.notes, pts := p.points.map fmt2 } :: os)

/-- The edit-key rotation of views.py lines 122-124: the fetched annotation
object is saved in full with its edit_key replaced, so the net effect on the
row is the new key. -/
def rotateKey (db : DB) (a : Anno) (newKey : List Nat) : DB :=
  { db with annos := db.annos.map (fun x => if x.pk = a.pk then { a with edit_key := newKey } else x) }

/-- The index clearing of views.py lines 127-130: every non-deleted polygon
of the annotation with a non-null anno_index has it set to null. -/
def clearIndices (db : DB) (aPk : Nat) : DB :=
  { db with polygons := db.polygons.map (fun p => if p.anno == aPk && !p.deleted && p.anno_index != none then { p with anno_index := none } else p) }

/-- get_annotation_xml (views.py lines 93-189).  The writes (edit-key
rotation, index clearing) are not transactional: the returned database
reflects them even when document building later crashes.  When the image id
matches no row the code reaches the visibility test with the image variable
unbound and crashes (line 105); a multiple match of either get also
crashes; an invisible image or a missing non-deleted annotation of the
requester raises Http404. -/
def getAnnoXml (db : DB) (u : Nat) (image_id : Nat) (newKey : List Nat) :
    DB × Except ExportErr ExportDoc :=
  match db.images.filter (fun im => im.pk == image_id) with
  | [] => (db, .error .crash)
  | _ :: _ :: _ => (db, .error .crash)
  | [im] =>
    if im.visible = false then (db, .error .http404)
    else
      match db.annos.filter (fun a => a.annotator == u && a.image == im.pk && !a.deleted) with
      | [] => (db, .error .http404)
      | _ :: _ :: _ => (db, .error .crash)
      | [a] =>
        let db2 : DB := clearIndices (rotateKey db a newKey) a.pk
        match buildObjs a.locked (db2.polygons.filter (fun p => p.anno == a.pk && !p.deleted)) with
        | .error e => (db2, .error e)
        | .ok objs =>
          (db2, .ok { c_anno_id := a.pk, edit_key := newKey, filename := im.pk,
                      objects := objs })

/-- Erase the verified field of one object element. -/
def scrubObj (o : ObjTag) : ObjTag := { o with verified := none }

/-- Erase every verified field of a document: the import path never reads
them. -/
def scrubVerified (doc : AnnoDoc) : AnnoDoc :=
  { doc with objects := doc.objects.map scrubObj }

/-- Reset the mutable fields of a polygon (those a successful import may
write); what remains is pk, owning annotation, anno_index and locked. -/
def erasePolyMut (p : Polygon) : Polygon :=
  { p with label_as_str := none, notes := "", occluded := false, points := [],
           deleted := false, last_edit_time := 0 }

/-- Reset the timestamp of an annotation row; what remains is everything a
successful import must keep, the edit key included. -/
def eraseAnnoTime (a : Anno) : Anno := { a with last_edit_time := 0 }

/-- Frame relation between a polygon row during the reconciliation loop and
its pre-import version: the immutable fields agree, and the row is either
untouched or was a non-deleted row of the target annotation. -/
def RecFrame (aPk : Nat) (q q0 : Polygon) : Prop :=
  erasePolyMut q = erasePolyMut q0 ∧ (q = q0 ∨ (q0.anno = aPk ∧ q0.deleted = false))

/-- Invariant of the reconciliation loop relative to the pre-import state
db0: images and annotations untouched, the polygon table is the old rows
(each related to its pre-import version by RecFrame) followed by created
rows (all owned by the target annotation, unlocked, with fresh pks), and
the polygon pks stay distinct. -/
def ImportInv (db0 : DB) (aPk : Nat) (db : DB) : Prop :=
  db.images = db0.images ∧ db.annos = db0.annos ∧
  ∃ olds news, db.polygons = olds ++ news ∧
    List.Forall₂ (RecFrame aPk) olds db0.polygons ∧
    (∀ q ∈ news, q.anno = aPk ∧ q.locked = false ∧
      q.pk ∉ db0.polygons.map (fun p => p.pk)) ∧
    (db.polygons.map (fun p => p.pk)).Nodup

/-- A visible image used by the concrete examples. -/
def bImg : Image := { pk := 1, visible := true }

/-- An editable annotation of user 1 on image 1 with edit key [5]. -/
def bAnno : Anno :=
  { pk := 10, annotator := 1, image := 1, edit_key := [5], locked := false,
    deleted := false, last_edit_time := 0 }

/-- The same annotation after a concurrent export rotated its key to [6]. -/
def bAnno6 : Anno := { bAnno with edit_key := [6] }

/-- A database with one image and one empty annotation. -/
def bDB : DB := { images := [bImg], annos := [bAnno], polygons := [] }

/-- The same database as read inside the transaction after a concurrent
export rotated the key. -/
def bDB6 : DB := { images := [bImg], annos := [bAnno6], polygons := [] }

/-- A stored polygon of the annotation, labelled "a". -/
def bPoly : Polygon :=
  { pk := 3, anno := 10, anno_index := none, label_as_str := some "a",
    notes := "", occluded := false, points := [], locked := false,
    deleted := false, last_edit_time := 0 }

/-- The database with the one stored polygon. -/
def bDBp : DB := { images := [bImg], annos := [bAnno], polygons := [bPoly] }

/-- A well-formed new-polygon object element labelled "x". -/
def bObj : ObjTag :=
  { c_poly_id := none, name := some (some "x"), deleted := some 0,
    verified := none, occluded := some (some "no"), attributes := none,
    polygon := some [] }

/-- A well-formed empty document for the annotation. -/
def bDoc : AnnoDoc :=
  { tag := "annotation", filename := some 1, c_anno_id := some 10,
    edit_key := some [5], objects := [] }

/-- An import document that edits the stored polygon's label to "b". -/
def w9doc : AnnoDoc :=
  { bDoc with objects := [{ bObj with c_poly_id := some (some 3), name := some (some "b") }] }

/-- The state after that import: polygon relabelled, timestamps refreshed,
everything else (the edit key included) untouched. -/
def w9res : DB :=
  { images := [bImg], annos := [{ bAnno with last_edit_time := 5 }],
    polygons := [{ bPoly with label_as_str := some "b", last_edit_time := 5 }] }

/-- Two images and two annotations of the same user, for the entity-identity
counterexample: annotation 10 on image 1 with key [1], annotation 20 on
image 2 with key [2]. -/
def c3db : DB :=
  { images := [{ pk := 1, visible := true }, { pk := 2, visible := true }],
    annos := [{ pk := 10, annotator := 1, image := 1, edit_key := [1], locked := false,
                deleted := false, last_edit_time := 0 },
              { pk := 20, annotator := 1, image := 2, edit_key := [2], locked := false,
                deleted := false, last_edit_time := 0 }],
    polygons := [] }

/-- A document whose entity-identity field designates annotation 10 while
its filename and edit key belong to annotation 20's session. -/
def c3doc : AnnoDoc :=
  { tag := "annotation", filename := some 2, c_anno_id := some 10,
    edit_key := some [2], objects := [bObj] }

/-- A persisted polygon with identity 7 created in this session at
position 3. -/
def w4pA : Polygon := { bPoly with pk := 7, anno_index := some 3 }

/-- A persisted polygon with identity 8 created in this session at
position 0. -/
def w4pB : Polygon := { bPoly with pk := 8, anno_index := some 0 }

/-- An intermediate record claiming identity 7. -/
def w4ap : AnnoPolygon :=
  { id := some 7, index := 1, name := some "z", deleted := false,
    occluded := false, attributes := "", points := [] }

/-- An identity-less intermediate record at position 0 labelled "n". -/
def w5ap : AnnoPolygon :=
  { id := none, index := 0, name := some "n", deleted := false,
    occluded := false, attributes := "", points := [] }

/-- The record the first import creates for w5ap over the empty database:
fresh pk 1, anno_index 0. -/
def w5new : Polygon :=
  { pk := 1, anno := 10, anno_index := some 0, label_as_str := some "n",
    notes := "", occluded := false, points := [], locked := false,
    deleted := false, last_edit_time := 5 }

/-- The second-session-less resubmission of the same child, editing only
its label. -/
def w5edit : AnnoPolygon := { w5ap with name := some "m" }

/-- An intermediate record claiming the unknown identity 99, marked
deleted. -/
def w10del : AnnoPolygon := { w4ap with id := some 99, deleted := true }

/-- An intermediate record claiming the unknown identity 99, not deleted. -/
def w10live : AnnoPolygon := { w4ap with id := some 99 }

/-- An object element whose name element is present but has no text content
(ElementTree text None), as an adversarial client can submit. -/
def c7obj : ObjTag := { bObj with name := some none }

/-- The import document carrying that empty-labelled element. -/
def c7doc : AnnoDoc := { bDoc with objects := [c7obj] }

lemma rhe_intCast (n : ℤ) : rhe (n : ℚ) = n := by
  unfold rhe
  simp only [Int.floor_intCast, sub_self]
  norm_num

lemma fmt2_round2 (v : ℚ) : fmt2 (round2 v) = fmt2 v := by
  unfold round2
  unfold fmt2
  rw [show (100 : ℚ) * ((rhe (100 * v) : ℚ) / 100) = ((rhe (100 * v) : ℚ)) by ring]
  exact rhe_intCast _

lemma getUnique_eq_some (l : List α) (f : α → Bool) (a : α)
    (h : getUnique l f = some a) : a ∈ l ∧ f a = true := by
  unfold getUnique at h
  cases hfl : l.filter f with
  | nil => rw [hfl] at h; exact absurd h (by simp)
  | cons b t =>
    cases t with
    | cons c t2 => rw [hfl] at h; exact absurd h (by simp)
    | nil =>
      rw [hfl] at h
      simp only [Option.some.injEq] at h
      subst h
      have hb : b ∈ l.filter f := by rw [hfl]; exact List.mem_cons_self b []
      exact ⟨List.mem_of_mem_filter hb, List.of_mem_filter hb⟩

lemma getUnique_key (key : α → Nat) (l : List α) (a : α)
    (hn : (l.map key).Nodup) (ha : a ∈ l) :
    getUnique l (fun x => key x == key a) = some a := by
  unfold getUnique
  suffices h : l.filter (fun x => key x == key a) = [a] by rw [h]
  induction l with
  | nil => cases ha
  | cons b t ih =>
    rw [List.map_cons, List.nodup_cons] at hn
    rcases List.mem_cons.mp ha with hba | hat
    · subst hba
      rw [List.filter_cons_of_pos (by simp)]
      have ht : t.filter (fun x => key x == key a) = [] := by
        refine List.filter_eq_nil_iff.mpr (fun x hx => ?_)
        simp only [beq_iff_eq]
        intro hk
        exact hn.1 (hk ▸ List.mem_map_of_mem key hx)
      rw [ht]
    · have hne : key b ≠ key a := by
        intro hk
        exact hn.1 (hk ▸ List.mem_map_of_mem key hat)
      rw [List.filter_cons_of_neg (by simpa using hne)]
      exact ih hn.2 hat

lemma getLast?_mem_list {l : List α} {a : α} (h : l.getLast? = some a) : a ∈ l := by
  rcases List.mem_getLast?_eq_getLast (x := a) h with ⟨hne, rfl⟩
  exact List.getLast_mem hne

lemma polygonsById_mem {sp : List Polygon} {i : Int} {p : Polygon}
    (h : polygonsById sp i = some p) : p ∈ sp ∧ (p.pk : Int) = i := by
  have hm := getLast?_mem_list h
  exact ⟨List.mem_of_mem_filter hm, by simpa using List.of_mem_filter hm⟩

lemma polygonsByIndex_mem {sp : List Polygon} {idx : Nat} {p : Polygon}
    (h : polygonsByIndex sp idx = some p) : p ∈ sp ∧ p.anno_index = some idx := by
  have hm := getLast?_mem_list h
  exact ⟨List.mem_of_mem_filter hm, by simpa using List.of_mem_filter hm⟩

lemma mem_snapPolys {db : DB} {aPk : Nat} {p : Polygon} (h : p ∈ snapPolys db aPk) :
    p ∈ db.polygons ∧ p.anno = aPk ∧ p.deleted = false := by
  unfold snapPolys at h
  have h1 := List.mem_of_mem_filter h
  have h2 := List.of_mem_filter h
  simp only [Bool.and_eq_true, beq_iff_eq, Bool.not_eq_true'] at h2
  exact ⟨h1, h2.1, h2.2⟩

lemma polyPkMax_ge {l : List Polygon} {q : Polygon} (h : q ∈ l) : q.pk ≤ polyPkMax l := by
  induction l with
  | nil => cases h
  | cons b t ih =>
    rcases List.mem_cons.mp h with hb | ht
    · subst hb; exact Nat.le_max_left _ _
    · exact Nat.le_trans (ih ht) (Nat.le_max_right _ _)

lemma freshPolyPk_not_mem (db : DB) : freshPolyPk db ∉ db.polygons.map (fun p => p.pk) := by
  intro hmem
  rcases List.mem_map.mp hmem with ⟨q, hq, hpk⟩
  have := polyPkMax_ge hq
  rw [hpk] at this
  unfold freshPolyPk at this
  omega

lemma erasePolyMut_mutUpdate (p : Polygon) (now : Nat) (ap : AnnoPolygon) :
    erasePolyMut (mutUpdate p now ap) = erasePolyMut p := rfl

lemma pk_mutUpdate (p : Polygon) (now : Nat) (ap : AnnoPolygon) :
    (mutUpdate p now ap).pk = p.pk := rfl

lemma pk_erasePolyMut (p : Polygon) : (erasePolyMut p).pk = p.pk := rfl

lemma RecFrame_pk {aPk : Nat} {q q0 : Polygon} (h : RecFrame aPk q q0) : q.pk = q0.pk := by
  rw [← pk_erasePolyMut q, ← pk_erasePolyMut q0, h.1]

lemma forall₂_map_pk {aPk : Nat} : ∀ {olds l0 : List Polygon},
    List.Forall₂ (RecFrame aPk) olds l0 →
    olds.map (fun p => p.pk) = l0.map (fun p => p.pk)
  | _, _, List.Forall₂.nil => rfl
  | _, _, List.Forall₂.cons h1 h2 => by
      simp only [List.map_cons]
      rw [RecFrame_pk h1, forall₂_map_pk h2]

lemma ImportInv_init (db0 : DB) (aPk : Nat)
    (hnd : (db0.polygons.map (fun p => p.pk)).Nodup) : ImportInv db0 aPk db0 := by
  refine ⟨rfl, rfl, db0.polygons, [], (List.append_nil _).symm, ?_, by simp, hnd⟩
  exact List.forall₂_same.mpr (fun x _ => ⟨rfl, Or.inl rfl⟩)

lemma map_eq_self_of {l : List α} {f : α → α} (h : ∀ a ∈ l, f a = a) : l.map f = l := by
  induction l with
  | nil => rfl
  | cons b t ih =>
    rw [List.map_cons, h b (List.mem_cons_self b t), ih (fun a ha => h a (List.mem_cons_of_mem b ha))]

lemma forall₂_replace {aPk : Nat} {p p2 : Polygon} (hpk : p2.pk = p.pk)
    (hrec : RecFrame aPk p2 p) {olds l0 : List Polygon}
    (hf : List.Forall₂ (RecFrame aPk) olds l0)
    (huniq : ∀ q0 ∈ l0, q0.pk = p.pk → q0 = p) :
    List.Forall₂ (RecFrame aPk) (olds.map (fun q => if q.pk = p2.pk then p2 else q)) l0 := by
  induction hf with
  | nil => exact List.Forall₂.nil
  | cons h1 h2 ih =>
    rename_i q q0 t t0
    rw [List.map_cons]
    refine List.Forall₂.cons ?_ (ih (fun x hx hxpk => huniq x (List.mem_cons_of_mem _ hx) hxpk))
    by_cases hq : q.pk = p2.pk
    · rw [if_pos hq]
      have hq0 : q0 = p := by
        refine huniq q0 (List.mem_cons_self _ _) ?_
        rw [← RecFrame_pk h1, hq, hpk]
      rw [hq0]
      exact hrec
    · rw [if_neg hq]
      exact h1

lemma savePoly_replace_inv {db0 : DB} {aPk : Nat} {db : DB} {p : Polygon}
    {now : Nat} {ap : AnnoPolygon}
    (hInv : ImportInv db0 aPk db) (hp : p ∈ db0.polygons)
    (hanno : p.anno = aPk) (hdel : p.deleted = false) :
    ImportInv db0 aPk (savePoly db (mutUpdate p now ap)) := by
  obtain ⟨hi, ha, olds, news, hsplit, hf2, hnews, hnd⟩ := hInv
  have hpk2 : (mutUpdate p now ap).pk = p.pk := rfl
  have holds_pk : olds.map (fun q => q.pk) = db0.polygons.map (fun q => q.pk) :=
    forall₂_map_pk hf2
  have hnd0 : (db0.polygons.map (fun q => q.pk)).Nodup := by
    rw [← holds_pk]
    rw [hsplit, List.map_append] at hnd
    exact hnd.of_append_left
  have hp_pk_olds : p.pk ∈ olds.map (fun q => q.pk) := by
    rw [holds_pk]; exact List.mem_map_of_mem _ hp
  rcases List.mem_map.mp hp_pk_olds with ⟨w, hw_olds, hw_pk⟩
  have hany : db.polygons.any (fun q => q.pk == (mutUpdate p now ap).pk) = true := by
    refine List.any_eq_true.mpr ⟨w, ?_, by simp [hw_pk, hpk2]⟩
    rw [hsplit]; exact List.mem_append_left _ hw_olds
  have huniq : ∀ q0 ∈ db0.polygons, q0.pk = p.pk → q0 = p := fun q0 hq0 hq0pk =>
    List.inj_on_of_nodup_map hnd0 hq0 hp hq0pk
  have hrec : RecFrame aPk (mutUpdate p now ap) p :=
    ⟨erasePolyMut_mutUpdate _ _ _, Or.inr ⟨hanno, hdel⟩⟩
  have hf_pk : ∀ q : Polygon,
      ((fun x : Polygon => if x.pk = (mutUpdate p now ap).pk then mutUpdate p now ap else x) q).pk
        = q.pk := by
    intro q
    dsimp only
    by_cases hq : q.pk = (mutUpdate p now ap).pk
    · rw [if_pos hq, hq]
    · rw [if_neg hq]
  have hnews_ne : ∀ q ∈ news,
      (fun x : Polygon => if x.pk = (mutUpdate p now ap).pk then mutUpdate p now ap else x) q
        = q := by
    intro q hq
    dsimp only
    refine if_neg ?_
    rw [hpk2]
    intro hqp
    exact (hnews q hq).2.2 (hqp ▸ List.mem_map_of_mem _ hp)
  unfold savePoly
  rw [if_pos hany]
  refine ⟨hi, ha,
    olds.map (fun x : Polygon => if x.pk = (mutUpdate p now ap).pk then mutUpdate p now ap else x),
    news, ?_, forall₂_replace hpk2 hrec hf2 huniq, hnews, ?_⟩
  · rw [hsplit, List.map_append, map_eq_self_of hnews_ne]
  · rw [List.map_map]
    have hmm : db.polygons.map ((fun q : Polygon => q.pk) ∘
        (fun x : Polygon => if x.pk = (mutUpdate p now ap).pk then mutUpdate p now ap else x))
        = db.polygons.map (fun q => q.pk) :=
      List.map_congr_left (fun q _ => hf_pk q)
    rw [hmm]
    exact hnd

lemma savePoly_append_inv {db0 : DB} {aPk : Nat} {db : DB} {now : Nat} {ap : AnnoPolygon}
    (hInv : ImportInv db0 aPk db) :
    ImportInv db0 aPk (savePoly db (mutUpdate (newPolygon aPk ap (freshPolyPk db)) now ap)) := by
  obtain ⟨hi, ha, olds, news, hsplit, hf2, hnews, hnd⟩ := hInv
  have hpk2 : (mutUpdate (newPolygon aPk ap (freshPolyPk db)) now ap).pk = freshPolyPk db := rfl
  have hfresh := freshPolyPk_not_mem db
  have hany : db.polygons.any
      (fun q => q.pk == (mutUpdate (newPolygon aPk ap (freshPolyPk db)) now ap).pk) = false := by
    rw [← Bool.not_eq_true]
    intro hcon
    rcases List.any_eq_true.mp hcon with ⟨q, hq, hbeq⟩
    rw [hpk2] at hbeq
    exact hfresh ((beq_iff_eq.mp hbeq) ▸ List.mem_map_of_mem _ hq)
  have holds_pk : olds.map (fun q => q.pk) = db0.polygons.map (fun q => q.pk) :=
    forall₂_map_pk hf2
  unfold savePoly
  rw [hany]
  simp only [Bool.false_eq_true, if_false]
  refine ⟨hi, ha, olds, news ++ [mutUpdate (newPolygon aPk ap (freshPolyPk db)) now ap],
    ?_, hf2, ?_, ?_⟩
  · show db.polygons ++ _ = _
    rw [hsplit, List.append_assoc]
  · intro q hq
    rcases List.mem_append.mp hq with hqn | hqe
    · exact hnews q hqn
    · have hqq : q = mutUpdate (newPolygon aPk ap (freshPolyPk db)) now ap := by
        simpa using hqe
      subst hqq
      refine ⟨rfl, rfl, ?_⟩
      rw [hpk2]
      intro hcon
      apply hfresh
      have hsub : db0.polygons.map (fun p => p.pk) = olds.map (fun q => q.pk) := holds_pk.symm
      rw [hsub] at hcon
      rw [hsplit, List.map_append]
      exact List.mem_append_left _ hcon
  · show ((db.polygons ++ _).map (fun q => q.pk)).Nodup
    rw [List.map_append]
    refine List.Nodup.append hnd (by simp) ?_
    intro a haIn haIn2
    simp only [List.map_cons, List.map_nil, List.mem_cons, List.not_mem_nil, or_false] at haIn2
    rw [haIn2, hpk2] at haIn
    exact hfresh haIn

lemma applyMatched_inv {db0 : DB} {aPk : Nat} {st : DB × Bool} {p : Polygon}
    {now : Nat} {ap : AnnoPolygon} {out : DB × Bool}
    (h : applyMatched st p false now ap = .ok out)
    (hInv : ImportInv db0 aPk st.1)
    (hp : p ∈ db0.polygons) (hanno : p.anno = aPk) (hdel : p.deleted = false) :
    ImportInv db0 aPk out.1 := by
  unfold applyMatched at h
  by_cases hc : polyChanged false p ap = true
  · rw [if_pos hc] at h
    simp only [Except.ok.injEq] at h
    rw [← h]
    exact savePoly_replace_inv hInv hp hanno hdel
  · rw [if_neg hc] at h
    simp only [Except.ok.injEq] at h
    rw [← h]
    exact hInv

lemma applyAnnoPoly_inv {db0 : DB} {sp : List Polygon} {aPk now : Nat}
    {st : DB × Bool} {ap : AnnoPolygon} {out : DB × Bool}
    (hsp : sp = snapPolys db0 aPk)
    (h : applyAnnoPoly sp aPk now st ap = .ok out)
    (hInv : ImportInv db0 aPk st.1) : ImportInv db0 aPk out.1 := by
  unfold applyAnnoPoly at h
  cases hid : ap.id with
  | some i =>
    simp only [hid] at h
    cases hbi : polygonsById sp i with
    | some p =>
      simp only [hbi] at h
      rw [hsp] at hbi
      obtain ⟨hmem, -⟩ := polygonsById_mem hbi
      obtain ⟨hmem0, hanno, hdel⟩ := mem_snapPolys hmem
      exact applyMatched_inv h hInv hmem0 hanno hdel
    | none =>
      simp only [hbi] at h
      by_cases hdel : ap.deleted = true
      · rw [if_pos hdel] at h
        simp only [Except.ok.injEq] at h
        rw [← h]
        exact hInv
      · rw [if_neg hdel] at h
        exact absurd h (by simp)
  | none =>
    simp only [hid] at h
    cases hbi : polygonsByIndex sp ap.index with
    | some p =>
      simp only [hbi] at h
      rw [hsp] at hbi
      obtain ⟨hmem, -⟩ := polygonsByIndex_mem hbi
      obtain ⟨hmem0, hanno, hdel⟩ := mem_snapPolys hmem
      exact applyMatched_inv h hInv hmem0 hanno hdel
    | none =>
      simp only [hbi] at h
      by_cases hdel : ap.deleted = true
      · rw [if_pos hdel] at h
        simp only [Except.ok.injEq] at h
        rw [← h]
        exact hInv
      · rw [if_neg hdel] at h
        unfold applyMatched at h
        have hpc : polyChanged true (newPolygon aPk ap (freshPolyPk st.1)) ap = true := rfl
        rw [if_pos hpc] at h
        simp only [Except.ok.injEq] at h
        rw [← h]
        exact savePoly_append_inv hInv

lemma foldlM_applyAnnoPoly_inv {db0 : DB} {sp : List Polygon} {aPk now : Nat}
    (hsp : sp = snapPolys db0 aPk) :
    ∀ (aps : List AnnoPolygon) (st out : DB × Bool),
    List.foldlM (applyAnnoPoly sp aPk now) st aps = .ok out →
    ImportInv db0 aPk st.1 → ImportInv db0 aPk out.1 := by
  intro aps
  induction aps with
  | nil =>
    intro st out h hInv
    have h2 : Except.ok st = Except.ok out := h
    simp only [Except.ok.injEq] at h2
    rw [← h2]
    exact hInv
  | cons a t ih =>
    intro st out h hInv
    simp only [List.foldlM_cons] at h
    cases hstep : applyAnnoPoly sp aPk now st a with
    | error e =>
      rw [hstep] at h
      simp [Bind.bind, Except.bind] at h
    | ok st1 =>
      rw [hstep] at h
      simp only [Bind.bind, Except.bind] at h
      exact ih st1 out h (applyAnnoPoly_inv hsp hstep hInv)

/-- Decomposition of a successful sequential import: every phase of
processAnnoXml passed and the committed state is the loop result with the
optional final timestamp update. -/
lemma processAnnoXml_ok_cases {db : DB} {u now : Nat} {doc : AnnoDoc} {db2 : DB}
    (h : processAnnoXml db db u now doc = .ok db2) :
    ∃ im a0 a2 ek aps dbL changed,
      resolveTarget db u doc = .ok (im, a0) ∧
      doc.edit_key = some ek ∧ ek = a0.edit_key ∧
      parseObjs doc.objects 0 [] = .ok aps ∧
      getUnique db.annos (fun a => a.pk == a0.pk) = some a2 ∧ ek = a2.edit_key ∧
      aps.foldlM (applyAnnoPoly (snapPolys db a0.pk) a2.pk now) (db, false) = .ok (dbL, changed) ∧
      db2 = (if changed then touchAnnoTime dbL a2.pk now else dbL) := by
  unfold processAnnoXml at h
  cases hres : resolveTarget db u doc with
  | error e => simp only [hres] at h; exact absurd h (by simp)
  | ok pair =>
    obtain ⟨im, a0⟩ := pair
    simp only [hres] at h
    cases hek : doc.edit_key with
    | none => simp only [hek] at h; exact absurd h (by simp)
    | some ek =>
      simp only [hek] at h
      by_cases hkm : ek ≠ a0.edit_key
      · rw [if_pos hkm] at h; exact absurd h (by simp)
      · rw [if_neg hkm] at h
        push_neg at hkm
        cases hpar : parseObjs doc.objects 0 [] with
        | error e => simp only [hpar] at h; exact absurd h (by simp)
        | ok aps =>
          simp only [hpar] at h
          cases hgu : getUnique db.annos (fun a => a.pk == a0.pk) with
          | none => simp only [hgu] at h; exact absurd h (by simp)
          | some a2 =>
            simp only [hgu] at h
            by_cases hkm2 : ek ≠ a2.edit_key
            · rw [if_pos hkm2] at h; exact absurd h (by simp)
            · rw [if_neg hkm2] at h
              push_neg at hkm2
              cases hfold : aps.foldlM (applyAnnoPoly (snapPolys db a0.pk) a2.pk now) (db, false) with
              | error e => simp only [hfold] at h; exact absurd h (by simp)
              | ok res =>
                obtain ⟨dbL, changed⟩ := res
                simp only [hfold, Except.ok.injEq] at h
                exact ⟨im, a0, a2, ek, aps, dbL, changed, rfl, rfl, hkm, rfl, hgu, hkm2,
                  hfold, h.symm⟩

lemma forall₂_map_erase {aPk : Nat} : ∀ {olds l0 : List Polygon},
    List.Forall₂ (RecFrame aPk) olds l0 →
    olds.map erasePolyMut = l0.map erasePolyMut
  | _, _, List.Forall₂.nil => rfl
  | _, _, List.Forall₂.cons h1 h2 => by
      simp only [List.map_cons]
      rw [h1.1, forall₂_map_erase h2]

lemma touchAnnoTime_images (db : DB) (aPk now : Nat) :
    (touchAnnoTime db aPk now).images = db.images := rfl

lemma touchAnnoTime_polygons (db : DB) (aPk now : Nat) :
    (touchAnnoTime db aPk now).polygons = db.polygons := rfl

lemma touchAnnoTime_annos_erase (db : DB) (aPk now : Nat) :
    (touchAnnoTime db aPk now).annos.map eraseAnnoTime = db.annos.map eraseAnnoTime := by
  unfold touchAnnoTime
  rw [List.map_map]
  refine List.map_congr_left (fun a _ => ?_)
  by_cases hq : a.pk = aPk
  · simp only [Function.comp_apply, if_pos hq]
    rfl
  · simp only [Function.comp_apply, if_neg hq]

lemma getUnique_annoPk (l : List Anno) (a : Anno)
    (hn : (l.map (fun x => x.pk)).Nodup) (ha : a ∈ l) :
    getUnique l (fun x => x.pk == a.pk) = some a :=
  getUnique_key (fun x => x.pk) l a hn ha

lemma parseObj_scrub (o : ObjTag) (idx : Nat) (seen : List Int) :
    parseObj (scrubObj o) idx seen = parseObj o idx seen := by
  cases o
  rfl

lemma parseObjs_scrub : ∀ (objs : List ObjTag) (idx : Nat) (seen : List Int),
    parseObjs (objs.map scrubObj) idx seen = parseObjs objs idx seen
  | [], _, _ => rfl
  | o :: rest, idx, seen => by
    rw [List.map_cons]
    unfold parseObjs
    rw [parseObj_scrub]
    cases parseObj o idx seen with
    | error e => rfl
    | ok ap =>
      dsimp only
      rw [parseObjs_scrub rest (idx + 1) _]

lemma processAnnoXml_scrub (snap commit : DB) (u now : Nat) (doc : AnnoDoc) :
    processAnnoXml snap commit u now (scrubVerified doc) =
      processAnnoXml snap commit u now doc := by
  cases doc
  unfold processAnnoXml scrubVerified resolveTarget
  simp only
  rw [parseObjs_scrub]

lemma resolveTarget_ok_props {db : DB} {u : Nat} {doc : AnnoDoc} {im : Image} {a0 : Anno}
    (h : resolveTarget db u doc = .ok (im, a0)) :
    im ∈ db.images ∧ im.visible = true ∧ a0 ∈ db.annos ∧
    a0.annotator = u ∧ a0.image = im.pk ∧ a0.locked = false ∧ a0.deleted = false ∧
    doc.c_anno_id ≠ none := by
  unfold resolveTarget at h
  by_cases htag : doc.tag ≠ "annotation"
  · rw [if_pos htag] at h; exact absurd h (by simp)
  · rw [if_neg htag] at h
    cases hfn : doc.filename with
    | none => simp only [hfn] at h; exact absurd h (by simp)
    | some fid =>
      simp only [hfn] at h
      cases hgi : getUnique db.images (fun x => (x.pk : Int) == fid) with
      | none => simp only [hgi] at h; exact absurd h (by simp)
      | some im2 =>
        simp only [hgi] at h
        obtain ⟨himem, -⟩ := getUnique_eq_some _ _ _ hgi
        by_cases hvis : im2.visible = false
        · rw [if_pos hvis] at h; exact absurd h (by simp)
        · rw [if_neg hvis] at h
          cases hca : doc.c_anno_id with
          | none => simp only [hca] at h; exact absurd h (by simp)
          | some j =>
            simp only [hca] at h
            cases hga : getUnique db.annos
                (fun a => a.annotator == u && a.image == im2.pk && !a.locked && !a.deleted) with
            | none => simp only [hga] at h; exact absurd h (by simp)
            | some a3 =>
              simp only [hga] at h
              obtain ⟨hamem, hcond⟩ := getUnique_eq_some _ _ _ hga
              by_cases hdel : a3.deleted = true
              · rw [if_pos hdel] at h; exact absurd h (by simp)
              · rw [if_neg hdel] at h
                simp only [Except.ok.injEq, Prod.mk.injEq] at h
                obtain ⟨him, ha0⟩ := h
                subst him
                subst ha0
                simp only [Bool.and_eq_true, beq_iff_eq, Bool.not_eq_true'] at hcond
                rw [Bool.not_eq_false] at hvis
                exact ⟨himem, hvis, hamem, hcond.1.1.1, hcond.1.1.2, hcond.1.2, hcond.2,
                  by simp [hca]⟩

lemma any_pk_eq_false {db : DB} {p : Polygon}
    (hpk : p.pk ∉ db.polygons.map (fun q => q.pk)) :
    db.polygons.any (fun q => q.pk == p.pk) = false := by
  rw [← Bool.not_eq_true]
  intro hcon
  rcases List.any_eq_true.mp hcon with ⟨q, hq, hbeq⟩
  have hmm : q.pk ∈ db.polygons.map (fun q => q.pk) := List.mem_map_of_mem _ hq
  rw [beq_iff_eq.mp hbeq] at hmm
  exact hpk hmm

lemma savePoly_fresh_append {db : DB} {p : Polygon}
    (hpk : p.pk ∉ db.polygons.map (fun q => q.pk)) :
    (savePoly db p).polygons = db.polygons ++ [p] := by
  unfold savePoly
  rw [any_pk_eq_false hpk]
  rfl

lemma applyMatched_index (st : DB × Bool) (p : Polygon) (c : Bool) (now : Nat)
    (ap : AnnoPolygon) (n : Nat) :
    applyMatched st p c now { ap with index := n } = applyMatched st p c now ap := by
  cases ap
  rfl

/-- C8: the coordinate canonicalization round2 is idempotent, the
two-decimal text (determined by fmt2) of a canonicalized value equals that
of the original value, and re-importing an exported coordinate text gives
back exactly the stored canonical value — so export, import of the
unmodified document, and export again produce byte-identical coordinate
text. -/
theorem round2_canonicalization_stable :
    ∀ v : ℚ, round2 (round2 v) = round2 v ∧ fmt2 (round2 v) = fmt2 v ∧
      round2 ((fmt2 v : ℚ) / 100) = (fmt2 v : ℚ) / 100 := by
  intro v
  have h := fmt2_round2 v
  refine ⟨?_, h, ?_⟩
  · calc round2 (round2 v) = (fmt2 (round2 v) : ℚ) / 100 := rfl
      _ = (fmt2 v : ℚ) / 100 := by rw [h]
      _ = round2 v := rfl
  · calc round2 ((fmt2 v : ℚ) / 100)
        = (rhe (100 * ((fmt2 v : ℚ) / 100)) : ℚ) / 100 := rfl
      _ = (rhe ((fmt2 v : ℤ) : ℚ) : ℚ) / 100 := by
          rw [show (100 : ℚ) * ((fmt2 v : ℚ) / 100) = ((fmt2 v : ℤ) : ℚ) by ring]
      _ = (fmt2 v : ℚ) / 100 := by rw [rhe_intCast]

/-- C1: the import is all-or-nothing.  Every write of the import path
happens inside the transaction, so whenever processing fails with any error
(parsing, validation, reconciliation, or the authoritative edit-key
re-check under the lock), the endpoint leaves the database exactly in its
commit-time state. -/
theorem import_error_no_writes (snap commit : DB) (u now : Nat) (doc : AnnoDoc)
    (e : ProcErr) (h : processAnnoXml snap commit u now doc = .error e) :
    postAnnoXml snap commit u now doc = (commit, some e) := by
  unfold postAnnoXml
  rw [h]

/-- Witness for C1 at a concrete input where the fast-path key check passes
but the authoritative re-check under the lock fails (a concurrent export
rotated the key between the two reads): the database is untouched. -/
theorem import_error_no_writes_witness :
    postAnnoXml bDB bDB6 1 5 bDoc = (bDB6, some ProcErr.invalidEditKey) :=
  import_error_no_writes bDB bDB6 1 5 bDoc ProcErr.invalidEditKey (by rfl)

/-- C2: an import whose submitted freshness token differs from the stored
token of the resolved annotation is rejected with the stale-token error
(SuspiciousOperation "invalid edit key") before any reconciliation, and the
endpoint applies no write at all. -/
theorem stale_token_rejected (db : DB) (u now : Nat) (doc : AnnoDoc)
    (im : Image) (a : Anno)
    (hres : resolveTarget db u doc = .ok (im, a))
    (hne : doc.edit_key ≠ some a.edit_key) :
    processAnnoXml db db u now doc = .error .invalidEditKey ∧
    postAnnoXml db db u now doc = (db, some .invalidEditKey) := by
  have hp : processAnnoXml db db u now doc = .error .invalidEditKey := by
    unfold processAnnoXml
    simp only [hres]
    cases hek : doc.edit_key with
    | none => rfl
    | some ek =>
      have hne2 : ek ≠ a.edit_key := by
        intro hcon
        exact hne (by rw [hek, hcon])
      simp [hne2]
  exact ⟨hp, by unfold postAnnoXml; rw [hp]⟩

/-- Witness for C2: a token left over from a superseded session ([9] while
the stored key is [5]) is rejected with no writes. -/
theorem stale_token_rejected_witness :
    processAnnoXml bDB bDB 1 5 { bDoc with edit_key := some [9] }
      = .error .invalidEditKey ∧
    postAnnoXml bDB bDB 1 5 { bDoc with edit_key := some [9] }
      = (bDB, some .invalidEditKey) :=
  stale_token_rejected bDB 1 5 { bDoc with edit_key := some [9] } bImg bAnno
    (by rfl) (by decide)

/-- C3 counterexample: the document designates annotation 10 in its
entity-identity field, yet the import succeeds and commits its new record
to annotation 20 — the one resolved from (requester, filename) — so the
committed AnnotatedEntity is not the one designated by the entity-identity
field.  Annotation 10 exists, is owned by the requester, unlocked and not
deleted, so the claimed resolution would have had to pick it. -/
theorem entity_identity_mismatch_counterexample :
    (processAnnoXml c3db c3db 1 5 c3doc).map (fun d => d.polygons.map (fun p => p.anno))
      = .ok [20] ∧
    c3doc.c_anno_id = some 10 ∧
    c3db.annos.map (fun a => (a.pk, a.annotator, a.locked, a.deleted))
      = [(10, 1, false, false), (20, 1, false, false)] ∧
    (20 : Nat) ≠ 10 :=
  ⟨rfl, rfl, rfl, by decide⟩

/-- C3 amended: the entity-identity field must parse (an absent or
unparseable field rejects the import) but its value is otherwise ignored;
the target AnnotatedEntity is resolved from the requester and the subject
item named by the filename field, filtered to not-locked and not-deleted,
and owned by the requester. -/
theorem entity_resolution_ignores_identity (db : DB) (u : Nat) (doc : AnnoDoc)
    (im : Image) (a : Anno) (j k : Int) :
    (resolveTarget db u doc = .ok (im, a) →
      a.annotator = u ∧ a.locked = false ∧ a.deleted = false ∧ a.image = im.pk ∧
      im.visible = true) ∧
    resolveTarget db u { doc with c_anno_id := some j }
      = resolveTarget db u { doc with c_anno_id := some k } ∧
    (doc.c_anno_id = none → ∀ r, resolveTarget db u doc ≠ .ok r) := by
  refine ⟨?_, ?_, ?_⟩
  · intro h
    obtain ⟨-, hvis, -, hu, him, hlock, hdel, -⟩ := resolveTarget_ok_props h
    exact ⟨hu, hlock, hdel, him, hvis⟩
  · rfl
  · intro hca r hcon
    obtain ⟨im2, a2⟩ := r
    obtain ⟨-, -, -, -, -, -, -, hne⟩ := resolveTarget_ok_props hcon
    exact hne hca

/-- Witness for the amended C3 at the concrete database: the resolved
annotation satisfies the ownership and flag conditions, and changing the
entity-identity value does not change the resolution. -/
theorem entity_resolution_ignores_identity_witness :
    (bAnno.annotator = 1 ∧ bAnno.locked = false ∧ bAnno.deleted = false ∧
      bAnno.image = bImg.pk ∧ bImg.visible = true) ∧
    resolveTarget bDB 1 { bDoc with c_anno_id := some 3 }
      = resolveTarget bDB 1 { bDoc with c_anno_id := some 4 } :=
  ⟨(entity_resolution_ignores_identity bDB 1 bDoc bImg bAnno 3 4).1 (by rfl),
   (entity_resolution_ignores_identity bDB 1 bDoc bImg bAnno 3 4).2.1⟩

/-- C4: a child element carrying a stable identity that matches a persisted
record is reconciled as the identity-matched update of that record,
whatever position index the element carries — the position-index map is
never consulted, even when it has an entry at that position. -/
theorem identity_match_ignores_position (sp : List Polygon) (aPk now : Nat)
    (st : DB × Bool) (ap : AnnoPolygon) (i : Int) (p : Polygon) (n : Nat)
    (hid : ap.id = some i) (hbi : polygonsById sp i = some p) :
    applyAnnoPoly sp aPk now st { ap with index := n } = applyMatched st p false now ap := by
  unfold applyAnnoPoly
  simp only [hid, hbi]
  exact applyMatched_index st p false now ap n

/-- Witness for C4: the element claims id 7 and sits at position 0; the
position map has an entry at 0 (a different record, pk 8), yet the step is
the identity-matched update of the pk 7 record. -/
theorem identity_match_ignores_position_witness :
    applyAnnoPoly [w4pA, w4pB] 10 5 (bDBp, false) { w4ap with index := 0 }
      = applyMatched (bDBp, false) w4pA false 5 w4ap ∧
    polygonsByIndex [w4pA, w4pB] 0 = some w4pB :=
  ⟨identity_match_ignores_position [w4pA, w4pB] 10 5 (bDBp, false) w4ap 7 w4pA 0
    (by rfl) (by rfl), rfl⟩

/-- C5: an identity-less element whose recomputed position misses the
position-index map and which is not marked deleted creates a brand-new
record whose anno_index is exactly that position (and whose label and owner
come from the element and the target annotation); an identity-less element
whose position hits the map is reconciled as an update of the record found
there — in particular, a second same-session import of the appended child
is attributed to the record the first import created, not to a new one. -/
theorem positionless_record_creation_and_attribution (sp : List Polygon)
    (aPk now : Nat) (st : DB × Bool) (ap : AnnoPolygon) (hid : ap.id = none) :
    (polygonsByIndex sp ap.index = none → ap.deleted = false →
      applyAnnoPoly sp aPk now st ap =
        .ok (savePoly st.1 (mutUpdate (newPolygon aPk ap (freshPolyPk st.1)) now ap), true) ∧
      (mutUpdate (newPolygon aPk ap (freshPolyPk st.1)) now ap).anno_index = some ap.index ∧
      (mutUpdate (newPolygon aPk ap (freshPolyPk st.1)) now ap).label_as_str = ap.name ∧
      (mutUpdate (newPolygon aPk ap (freshPolyPk st.1)) now ap).anno = aPk ∧
      (savePoly st.1 (mutUpdate (newPolygon aPk ap (freshPolyPk st.1)) now ap)).polygons
        = st.1.polygons ++ [mutUpdate (newPolygon aPk ap (freshPolyPk st.1)) now ap]) ∧
    (∀ p, polygonsByIndex sp ap.index = some p →
      applyAnnoPoly sp aPk now st ap = applyMatched st p false now ap) := by
  constructor
  · intro hbi hdel
    have h1 : applyAnnoPoly sp aPk now st ap
        = applyMatched st (newPolygon aPk ap (freshPolyPk st.1)) true now ap := by
      unfold applyAnnoPoly
      simp only [hid, hbi]
      rw [if_neg (by simp [hdel])]
    have hpc : polyChanged true (newPolygon aPk ap (freshPolyPk st.1)) ap = true := rfl
    have h2 : applyMatched st (newPolygon aPk ap (freshPolyPk st.1)) true now ap
        = .ok (savePoly st.1 (mutUpdate (newPolygon aPk ap (freshPolyPk st.1)) now ap), true) := by
      unfold applyMatched
      rw [if_pos hpc]
    refine ⟨h1.trans h2, rfl, rfl, rfl, ?_⟩
    exact savePoly_fresh_append (freshPolyPk_not_mem st.1)
  · intro p hbi
    unfold applyAnnoPoly
    simp only [hid, hbi]

/-- Witness for C5: the first import appends an identity-less element at
position 0 over an empty snapshot and creates a record with anno_index 0;
the second same-session import of that position edits the created record
(the label move to "m" is an update of the same record, pk 1). -/
theorem positionless_record_creation_and_attribution_witness :
    applyAnnoPoly [] 10 5 (bDB, false) w5ap
      = .ok (savePoly bDB (mutUpdate (newPolygon 10 w5ap (freshPolyPk bDB)) 5 w5ap), true) ∧
    applyAnnoPoly [w5new] 10 6 (bDB, false) w5edit
      = applyMatched (bDB, false) w5new false 6 w5edit ∧
    w5new.anno_index = some 0 ∧ w5new.pk = 1 :=
  ⟨((positionless_record_creation_and_attribution [] 10 5 (bDB, false) w5ap rfl).1
      (by rfl) rfl).1,
   (positionless_record_creation_and_attribution [w5new] 10 6 (bDB, false) w5edit rfl).2
      w5new (by rfl),
   rfl, rfl⟩

/-- C6 is a code bug: when the referenced subject item does not exist, the
export path reads the visibility of an unbound variable and crashes with an
UnboundLocalError (a server error) instead of the NotFound outcome; a
missing annotation for an existing visible image does produce NotFound. -/
theorem export_missing_image_crashes :
    getAnnoXml bDB 1 99 [7] = (bDB, .error .crash) ∧
    getAnnoXml { images := [bImg], annos := [], polygons := [] } 1 1 [7]
      = ({ images := [bImg], annos := [], polygons := [] }, .error .http404) ∧
    ExportErr.crash ≠ ExportErr.http404 :=
  ⟨rfl, rfl, by decide⟩

/-- C7 is a code bug: a child element whose label element is present but
empty is not rejected — ElementTree gives None (not the empty string) as
its text, so the emptiness check of views.py line 264 never fires — and
the commit stores a record whose label is missing.  isEmptyStr shows
the dead check: it only matches an actual empty string, which parsed XML
never produces. -/
theorem empty_label_not_rejected :
    (processAnnoXml bDB bDB 1 5 c7doc).map (fun d => d.polygons.map (fun p => p.label_as_str))
      = .ok [none] ∧
    c7obj.name = some none ∧
    isEmptyStr (some "") = true ∧ isEmptyStr none = false :=
  ⟨rfl, rfl, rfl, rfl⟩

/-- C9: a successful sequential import leaves the images untouched, changes
no annotation field other than last_edit_time (so the freshness token is
never rotated and no annotation locked flag changes), keeps every
pre-existing polygon's pk, owning annotation, anno_index and locked flag
(only label, notes, occlusion, points, deletion flag and timestamp may
move), creates only unlocked polygons, and is entirely independent of the
client-supplied verified fields. -/
theorem import_frame_effect (db : DB) (u now : Nat) (doc : AnnoDoc) (db2 : DB)
    (hnd : (db.polygons.map (fun p => p.pk)).Nodup)
    (h : processAnnoXml db db u now doc = .ok db2) :
    db2.images = db.images ∧
    db2.annos.map eraseAnnoTime = db.annos.map eraseAnnoTime ∧
    (db2.polygons.map erasePolyMut).take db.polygons.length = db.polygons.map erasePolyMut ∧
    (∀ q ∈ db2.polygons.drop db.polygons.length, q.locked = false) ∧
    processAnnoXml db db u now (scrubVerified doc) = .ok db2 := by
  obtain ⟨im, a0, a2, ek, aps, dbL, changed, hres, hek, hk0, hpar, hgu, hk2, hfold, hdb2⟩ :=
    processAnnoXml_ok_cases h
  obtain ⟨-, hpkbeq⟩ := getUnique_eq_some _ _ _ hgu
  have hpk02 : a2.pk = a0.pk := by simpa using hpkbeq
  have hsp : snapPolys db a0.pk = snapPolys db a2.pk := by rw [hpk02]
  have hInv : ImportInv db a2.pk dbL :=
    foldlM_applyAnnoPoly_inv hsp aps (db, false) (dbL, changed) hfold
      (ImportInv_init db a2.pk hnd)
  obtain ⟨hi, ha, olds, news, hsplit, hf2, hnews, hndL⟩ := hInv
  have him2 : db2.images = dbL.images := by
    rw [hdb2]
    by_cases hc : changed = true
    · rw [if_pos hc]; rfl
    · rw [if_neg hc]
  have hpoly2 : db2.polygons = dbL.polygons := by
    rw [hdb2]
    by_cases hc : changed = true
    · rw [if_pos hc]; rfl
    · rw [if_neg hc]
  have hann2 : db2.annos.map eraseAnnoTime = dbL.annos.map eraseAnnoTime := by
    rw [hdb2]
    by_cases hc : changed = true
    · rw [if_pos hc]; exact touchAnnoTime_annos_erase dbL a2.pk now
    · rw [if_neg hc]
  have hlen : olds.length = db.polygons.length := List.Forall₂.length_eq hf2
  refine ⟨?_, ?_, ?_, ?_, ?_⟩
  · rw [him2, hi]
  · rw [hann2, ha]
  · rw [hpoly2, hsplit, List.map_append]
    rw [show db.polygons.length = (olds.map erasePolyMut).length by
      rw [List.length_map, hlen]]
    rw [List.take_left]
    exact forall₂_map_erase hf2
  · intro q hq
    rw [hpoly2, hsplit, ← hlen, List.drop_left] at hq
    exact (hnews q hq).2.1
  · rw [processAnnoXml_scrub]
    exact h

/-- Witness for C9 at a concrete import that relabels a stored polygon:
images identical, annotations identical up to the timestamp (edit key
untouched), polygon immutable fields identical, and the scrubbed-verified
document commits to the same state. -/
theorem import_frame_effect_witness :
    w9res.images = bDBp.images ∧
    w9res.annos.map eraseAnnoTime = bDBp.annos.map eraseAnnoTime ∧
    (w9res.polygons.map erasePolyMut).take bDBp.polygons.length
      = bDBp.polygons.map erasePolyMut ∧
    processAnnoXml bDBp bDBp 1 5 (scrubVerified w9doc) = .ok w9res := by
  obtain ⟨h1, h2, h3, h4, h5⟩ := import_frame_effect bDBp 1 5 w9doc w9res (by decide) (by rfl)
  exact ⟨h1, h2, h3, h5⟩

/-- C10: containment of a successful sequential import.  Every polygon row
after the commit is either an old row — mutated only if it was a
non-deleted row of the resolved target annotation, and then only in its
mutable fields — or a created row owned by the resolved target annotation.
A submitted identity whose pk belongs to no non-deleted polygon of the
target (in particular one owned by another annotation, or a deleted one) is
treated exactly like an unknown identity: the reconciliation step is a
state-preserving no-op when the element is marked deleted and otherwise
fails the whole operation with the uncaught KeyError. -/
theorem import_entity_containment (db : DB) (u now : Nat) (doc : AnnoDoc) (db2 : DB)
    (im : Image) (a : Anno)
    (hndP : (db.polygons.map (fun p => p.pk)).Nodup)
    (hndA : (db.annos.map (fun x => x.pk)).Nodup)
    (hres : resolveTarget db u doc = .ok (im, a))
    (h : processAnnoXml db db u now doc = .ok db2) :
    (∃ olds news, db2.polygons = olds ++ news ∧
      List.Forall₂ (RecFrame a.pk) olds db.polygons ∧
      (∀ q ∈ news, q.anno = a.pk)) ∧
    (∀ (i : Int) (ap : AnnoPolygon) (st : DB × Bool),
      ap.id = some i →
      (∀ p ∈ db.polygons, (p.pk : Int) = i → p.anno ≠ a.pk ∨ p.deleted = true) →
      (ap.deleted = true → applyAnnoPoly (snapPolys db a.pk) a.pk now st ap = .ok st) ∧
      (ap.deleted = false → applyAnnoPoly (snapPolys db a.pk) a.pk now st ap
        = .error .keyError)) := by
  constructor
  · obtain ⟨im2, a0, a2, ek, aps, dbL, changed, hres2, hek, hk0, hpar, hgu, hk2, hfold, hdb2⟩ :=
      processAnnoXml_ok_cases h
    rw [hres] at hres2
    simp only [Except.ok.injEq, Prod.mk.injEq] at hres2
    obtain ⟨-, ha0⟩ := hres2
    subst ha0
    have hmem_a : a ∈ db.annos := (resolveTarget_ok_props hres).2.2.1
    have hgu2 : getUnique db.annos (fun x => x.pk == a.pk) = some a :=
      getUnique_annoPk db.annos a hndA hmem_a
    rw [hgu2] at hgu
    simp only [Option.some.injEq] at hgu
    subst hgu
    have hInv : ImportInv db a.pk dbL :=
      foldlM_applyAnnoPoly_inv rfl aps (db, false) (dbL, changed) hfold
        (ImportInv_init db a.pk hndP)
    obtain ⟨hi, ha, olds, news, hsplit, hf2, hnews, hndL⟩ := hInv
    have hpoly2 : db2.polygons = dbL.polygons := by
      rw [hdb2]
      by_cases hc : changed = true
      · rw [if_pos hc]; rfl
      · rw [if_neg hc]
    exact ⟨olds, news, hpoly2.trans hsplit, hf2, fun q hq => (hnews q hq).1⟩
  · intro i ap st hid hforeign
    have hfil : (snapPolys db a.pk).filter (fun p => (p.pk : Int) == i) = [] := by
      refine List.filter_eq_nil_iff.mpr (fun p hp hbeq => ?_)
      obtain ⟨hmem, hanno, hdel⟩ := mem_snapPolys hp
      have hpk : (p.pk : Int) = i := beq_iff_eq.mp hbeq
      rcases hforeign p hmem hpk with hc | hc
      · exact hc hanno
      · rw [hdel] at hc
        exact Bool.false_ne_true hc
    have hnone : polygonsById (snapPolys db a.pk) i = none := by
      unfold polygonsById
      rw [hfil]
      rfl
    constructor
    · intro hdel
      unfold applyAnnoPoly
      simp only [hid, hnone]
      rw [if_pos hdel]
    · intro hdel
      unfold applyAnnoPoly
      simp only [hid, hnone]
      rw [if_neg (by simp [hdel])]

/-- Witness for C10: over the database whose only polygon is pk 3, a
submitted identity 99 (belonging to no non-deleted polygon of the target)
is a no-op when the element is marked deleted and a KeyError failure when
it is not. -/
theorem import_entity_containment_witness :
    applyAnnoPoly (snapPolys bDBp bAnno.pk) bAnno.pk 5 (bDB, false) w10del
      = .ok (bDB, false) ∧
    applyAnnoPoly (snapPolys bDBp bAnno.pk) bAnno.pk 5 (bDB, false) w10live
      = .error .keyError :=
  ⟨((import_entity_containment bDBp 1 5 w9doc w9res bImg bAnno (by decide) (by decide)
      (by rfl) (by rfl)).2 99 w10del (bDB, false) rfl (by decide)).1 rfl,
   ((import_entity_containment bDBp 1 5 w9doc w9res bImg bAnno (by decide) (by decide)
      (by rfl) (by rfl)).2 99 w10live (bDB, false) rfl (by decide)).2 rfl⟩

end Labelous
